import Mathlib

set_option maxRecDepth 16000

namespace QNote

/-! Shallow embedding of the QNote Auto Import Backend crawler
(src/app.py). Network I/O, random shuffling and the HTML parsing library
are external capabilities; they enter the model as oracle parameters
(`Env`, `Dom`, `shuffle`, `urljoin`), while every piece of control flow
and string manipulation of the source is translated directly. -/

/-! ## String helpers (kernel-reducible models of the Python string ops) -/

/-- HTML escaping of one character, as the serializer of the DOM library
applies to text nodes. -/
def escapeChar (c : Char) : String :=
  if c == '&' then "&amp;"
  else if c == '<' then "&lt;"
  else if c == '>' then "&gt;"
  else String.mk [c]

/-- HTML escaping of a text-node string. -/
def escapeHtml (s : String) : String :=
  String.join (s.toList.map escapeChar)

/-- Python str.strip(): drop leading and trailing whitespace. -/
def pyStrip (s : String) : String :=
  String.mk (((s.toList.dropWhile Char.isWhitespace).reverse.dropWhile Char.isWhitespace).reverse)

/-- Whether the first list is an initial segment of the second. -/
def listPrefixEq : List Char → List Char → Bool
  | [], _ => true
  | _ :: _, [] => false
  | a :: as, b :: bs => a == b && listPrefixEq as bs

/-- Python str.startswith. -/
def pyStartsWith (s pre : String) : Bool :=
  listPrefixEq pre.toList s.toList

/-- Maximal run of decimal digits at the head of the list. -/
def digitPrefix : List Char → List Char
  | [] => []
  | c :: rest => if c.isDigit then c :: digitPrefix rest else []

/-- The fixed detail-page path pattern searched for in hrefs. -/
def detailPat : List Char := ['/', 'd', 'e', 't', 'a', 'i', 'l', '/']

/-- Leftmost match of the regular expression `/detail/(\d+)`: scan for the
first position where the literal pattern is followed by at least one digit
and capture the maximal digit run, as re.search does in
extract_book_ids_from_homepage. -/
def detailMatch : List Char → Option (List Char)
  | [] => none
  | c :: rest =>
    if listPrefixEq detailPat (c :: rest) then
      match digitPrefix (List.drop 8 (c :: rest)) with
      | [] => detailMatch rest
      | d :: ds => some (d :: ds)
    else detailMatch rest

/-- Characters of an authority component up to the first slash. -/
def takeUntilSlash : List Char → List Char
  | [] => []
  | c :: rest => if c == '/' then [] else c :: takeUntilSlash rest

/-- Split a URL at the first scheme separator. -/
def splitScheme : List Char → Option (List Char × List Char)
  | [] => none
  | ':' :: '/' :: '/' :: rest => some ([], rest)
  | c :: rest =>
    match splitScheme rest with
    | some (pre, post) => some (c :: pre, post)
    | none => none

/-- Scheme and authority of a URL, e.g. the part of the base URL that an
absolute-path reference is resolved against. -/
def schemeHost (base : String) : String :=
  match splitScheme base.toList with
  | some (scheme, rest) =>
    String.mk (scheme ++ [':', '/', '/'] ++ takeUntilSlash rest)
  | none => base

/-- Model of the external urllib.parse.urljoin capability, restricted to
the cases the crawler exercises: absolute-path references are resolved
against the scheme and authority of the base; other hrefs are returned
unchanged. The general extractor theorems are stated for an arbitrary
urljoin function; this concrete model only feeds the worked examples. -/
def urljoinAbsPath (base href : String) : String :=
  if pyStartsWith href "/" then schemeHost base ++ href else href

/-- Python truthiness test `not x` for an Optional[str] value: true on
None and on the empty string. -/
def pyFalsy : Option String → Bool
  | none => true
  | some s => s == ""

/-! ## DOM model -/

mutual
/-- DOM tree for parsed HTML fragments. The HTML parsing library is a
black-box DOM-query capability; its parsed output is a forest of
element/text nodes, which this type models. -/
inductive Node where
  | element (tag : String) (attrs : List (String × String)) (children : NodeList)
  | text (s : String)
/-- A forest of sibling DOM nodes. -/
inductive NodeList where
  | nil
  | cons (head : Node) (tail : NodeList)
end

/-- Whether a node is an image element. -/
def isImg : Node → Bool
  | .element tag _ _ => tag == "img"
  | .text _ => false

/-- Whether a node is an anchor element. -/
def isAnchor : Node → Bool
  | .element tag _ _ => tag == "a"
  | .text _ => false

/-- Attribute lookup on an element, modelling Tag.get. -/
def getAttr (n : Node) (key : String) : Option String :=
  match n with
  | .text _ => none
  | .element _ attrs _ => attrs.lookup key

mutual
/-- Concatenated text of all descendant text nodes, as get_text() returns. -/
def getTextNode : Node → String
  | .text s => s
  | .element _ _ children => getTextList children
/-- getText over a forest. -/
def getTextList : NodeList → String
  | .nil => ""
  | .cons n rest => getTextNode n ++ getTextList rest
end

mutual
/-- Text of all descendant text nodes with each segment stripped, as
get_text(strip=True) returns. -/
def getTextStripNode : Node → String
  | .text s => pyStrip s
  | .element _ _ children => getTextStripList children
/-- getTextStrip over a forest. -/
def getTextStripList : NodeList → String
  | .nil => ""
  | .cons n rest => getTextStripNode n ++ getTextStripList rest
end

/-- Serialization of an attribute list. -/
def serializeAttrs : List (String × String) → String
  | [] => ""
  | (k, v) :: rest => " " ++ k ++ "=\"" ++ escapeHtml v ++ "\"" ++ serializeAttrs rest

mutual
/-- Serialization of a node back to an HTML string, modelling str(tag) of
the DOM library. -/
def serializeNode : Node → String
  | .text s => escapeHtml s
  | .element tag attrs children =>
    "<" ++ tag ++ serializeAttrs attrs ++ ">" ++ serializeList children ++ "</" ++ tag ++ ">"
/-- Serialization of a forest, modelling str(soup) / joined str(n). -/
def serializeList : NodeList → String
  | .nil => ""
  | .cons n rest => serializeNode n ++ serializeList rest
end

mutual
/-- First pass of clean_html: every img element is decomposed (removed
with its whole subtree), modelling the find_all img loop. -/
def stripImgsNode : Node → Node
  | .text s => .text s
  | .element tag attrs children => .element tag attrs (stripImgsList children)
/-- Img-stripping over a forest. -/
def stripImgsList : NodeList → NodeList
  | .nil => .nil
  | .cons n rest =>
    if isImg n then stripImgsList rest
    else .cons (stripImgsNode n) (stripImgsList rest)
end

mutual
/-- Second pass of clean_html: every anchor element is replaced by its own
visible text, modelling the replace_with get_text loop over find_all a. -/
def unwrapAnchorsNode : Node → Node
  | .text s => .text s
  | .element tag attrs children => .element tag attrs (unwrapAnchorsList children)
/-- Anchor unwrapping over a forest. -/
def unwrapAnchorsList : NodeList → NodeList
  | .nil => .nil
  | .cons n rest =>
    if isAnchor n then .cons (.text (getTextNode n)) (unwrapAnchorsList rest)
    else .cons (unwrapAnchorsNode n) (unwrapAnchorsList rest)
end

/-- clean_html from src/app.py at the level of the parsed DOM forest:
all img elements are decomposed, then every anchor is replaced by its
text. Parsing a string into the forest and serializing it back are the
black-box DOM capability. -/
def clean_html (ns : NodeList) : NodeList :=
  unwrapAnchorsList (stripImgsList ns)

mutual
/-- No element with the given tag occurs anywhere in the node. -/
def noTagNode (t : String) : Node → Bool
  | .text _ => true
  | .element tag _ children => (!(tag == t)) && noTagList t children
/-- No element with the given tag occurs anywhere in the forest. -/
def noTagList (t : String) : NodeList → Bool
  | .nil => true
  | .cons n rest => noTagNode t n && noTagList t rest
end

/-! ## Fetcher -/

/-- Outcome of one HTTP GET issued by the client: either an exception
(connect error, timeout, DNS failure) or a response with a status code
and a body. -/
inductive FetchOutcome where
  | exn
  | response (status : Nat) (body : String)

/-- fetch_text from src/app.py: the body text is returned only on status
200; any exception and any non-200 status yield None. The function is
total on all outcomes, so it never raises to its caller. -/
def fetch_text : FetchOutcome → Option String
  | .exn => none
  | .response status body => if status == 200 then some body else none

/-- Oracle environment for a crawl run: the network outcome of every URL,
and whether a Python exception escapes crawl_single_book for a given book
id (the try/except in the crawl_books loop exists to catch those). -/
structure Env where
  outcome : String → FetchOutcome
  raises : String → Bool

/-- A fetch through the environment: fetch_text applied to the network
outcome of the URL. -/
def fetchUrl (env : Env) (url : String) : Option String :=
  fetch_text (env.outcome url)

/-! ## Data model -/

/-- Chapter record, as assembled by the chapter loop. -/
structure Chapter where
  title : String
  content : String
  source : String
deriving DecidableEq

/-- Book record, as assembled by crawl_single_book. -/
structure Book where
  id : String
  title : String
  description : String
  category : String
  source_book : String
  chapters : List Chapter
deriving DecidableEq

/-- Request body of the crawl endpoints. -/
structure CrawlRequest where
  num_books : Int := 2
  short : Bool := false

/-- DOM query results for every page, one field per distinct query the
source performs; each takes the page text. This is the black-box
select-by-CSS / get-text capability of the HTML library. -/
structure Dom where
  findH1H2 : String → Option Node
  selectOne : String → String → Option Node
  select : String → String → NodeList
  findAllP : String → NodeList
  findH1 : String → Option Node
  anchorHrefs : String → List String

/-! ## Link extractor -/

/-- Per-href pass of extract_book_ids_from_homepage: skip empty hrefs,
resolve relative hrefs against the base (hrefs starting with http are
used as-is), and keep the captured digit run of the first
`/detail/(\d+)` match. -/
def collectDetailIds (urljoin : String → String → String) (base : String) :
    List String → List String
  | [] => []
  | href :: rest =>
    if href == "" then collectDetailIds urljoin base rest
    else
      let href_abs := if pyStartsWith href "http" then href else urljoin base href
      match detailMatch href_abs.toList with
      | some ds => String.mk ds :: collectDetailIds urljoin base rest
      | none => collectDetailIds urljoin base rest

/-- The preserve-unique-order pass of extract_book_ids_from_homepage: a
seen set and an output list, keeping the first occurrence of each id. -/
def dedupFirst (seen : List String) : List String → List String
  | [] => []
  | i :: rest =>
    if i ∈ seen then dedupFirst seen rest
    else i :: dedupFirst (i :: seen) rest

/-- extract_book_ids_from_homepage from src/app.py, with the anchor scan
of the parsed page and URL resolution as oracles. -/
def extract_book_ids_from_homepage (dom : Dom) (urljoin : String → String → String)
    (html : String) (base : String) : List String :=
  dedupFirst [] (collectDetailIds urljoin base (dom.anchorHrefs html))

/-! ## Book crawler -/

/-- Detail page URL template. -/
def detail_url (book_id : String) : String :=
  "https://qnote.qq.com/detail/" ++ book_id

/-- Chapter page URL template. -/
def chapter_url (book_id : String) (i : Nat) : String :=
  "https://qnote.qq.com/read/" ++ book_id ++ "/" ++ toString i

/-- The ordered description selector candidates of crawl_single_book. -/
def descSelectors : List String := [".intro", ".detail_intro", ".book-intro", ".summary"]

/-- The description selector loop: the first selector whose node has
non-empty stripped text wins and its cleaned serialization is the
description; otherwise the loop falls through with the empty string. -/
def descFromSelectors (dom : Dom) (detail : String) : List String → String
  | [] => ""
  | sel :: rest =>
    match dom.selectOne detail sel with
    | some node =>
      if getTextStripNode node == "" then descFromSelectors dom detail rest
      else serializeList (clean_html (.cons node .nil))
    | none => descFromSelectors dom detail rest

/-- CSS selector of the meta description tag. -/
def metaSel : String := "meta[name=\"description\"]"

/-- Description computation of crawl_single_book: selector candidates
first, then the raw content attribute of the meta description tag, then
the placeholder. -/
def bookDescription (dom : Dom) (detail : String) : String :=
  let d0 := descFromSelectors dom detail descSelectors
  let d1 :=
    if d0 == "" then
      match dom.selectOne detail metaSel with
      | some meta =>
        match getAttr meta "content" with
        | some c => c
        | none => ""
      | none => ""
    else d0
  if d1 == "" then "<p>Chưa có mô tả</p>" else d1

/-- Title computation of crawl_single_book: first h1-or-h2 heading,
stripped, with a default built from the book id. -/
def bookTitle (dom : Dom) (detail : String) (book_id : String) : String :=
  match dom.findH1H2 detail with
  | some t => pyStrip (getTextNode t)
  | none => "Book " ++ book_id

/-- Category computation of crawl_single_book: the second breadcrumb
anchor, stripped, with the Unknown default when empty or absent. -/
def bookCategory (dom : Dom) (detail : String) : String :=
  let raw_cat :=
    match dom.selectOne detail ".breadcrumb a:nth-of-type(2)" with
    | some b => pyStrip (getTextNode b)
    | none => ""
  if raw_cat == "" then "Unknown" else raw_cat

/-- The ordered content-container selector candidates of the chapter loop. -/
def contentSelectors : List String := [".content", ".chapter", ".read-content", "#content", ".article"]

/-- Content selector loop of the chapter body: the first selector that
matches at least one element wins and all its matches are kept. -/
def chapterSelNodes (dom : Dom) (body : String) : List String → NodeList
  | [] => .nil
  | sel :: rest =>
    match dom.select body sel with
    | .nil => chapterSelNodes dom body rest
    | .cons n ns => .cons n ns

/-- Chapter content nodes: selector candidates, then all paragraph
elements, then the placeholder paragraph. -/
def chapterNodes (dom : Dom) (body : String) : NodeList :=
  match chapterSelNodes dom body contentSelectors with
  | .cons n ns => .cons n ns
  | .nil =>
    match dom.findAllP body with
    | .cons p ps => .cons p ps
    | .nil => .cons (.element "p" [] (.cons (.text "Chưa có nội dung") .nil)) .nil

/-- Whether the fetch of chapter i of a book counts as a success in the
chapter loop, i.e. the Python test `if not ch_body` fails. -/
def chapterHit (env : Env) (book_id : String) (i : Nat) : Bool :=
  !(pyFalsy (fetchUrl env (chapter_url book_id i)))

/-- Assembly of the Chapter record for a successfully fetched chapter:
h1 title with localized default, content from the selector cascade passed
through clean_html, and the chapter URL as source. -/
def mkChapter (env : Env) (dom : Dom) (book_id : String) (i : Nat) : Chapter :=
  let ch_url := chapter_url book_id i
  let body := (fetchUrl env ch_url).getD ""
  let ch_title :=
    match dom.findH1 body with
    | some h => pyStrip (getTextNode h)
    | none => "Chương " ++ toString i
  { title := ch_title
    content := serializeList (clean_html (chapterNodes dom body))
    source := ch_url }

/-- The early-exit sequential chapter loop of crawl_single_book: chapter
indices are fetched one at a time in increasing order; a consecutive-miss
counter is incremented on each falsy fetch and reset on each hit; the
loop breaks once the counter reaches 3 and otherwise runs to the hard
cap. The fuel argument is the number of remaining loop iterations
(initially hard_cap, for the range from 1 to hard_cap); the result is the
chapter list together with the number of fetches attempted. -/
def chapterLoopAux (env : Env) (dom : Dom) (book_id : String) :
    Nat → Nat → Nat → List Chapter × Nat
  | 0, _, _ => ([], 0)
  | fuel + 1, i, misses =>
    if chapterHit env book_id i then
      (mkChapter env dom book_id i :: (chapterLoopAux env dom book_id fuel (i + 1) 0).1,
       (chapterLoopAux env dom book_id fuel (i + 1) 0).2 + 1)
    else if 3 ≤ misses + 1 then ([], 1)
    else
      ((chapterLoopAux env dom book_id fuel (i + 1) (misses + 1)).1,
       (chapterLoopAux env dom book_id fuel (i + 1) (misses + 1)).2 + 1)

/-- Chapter acquisition of crawl_single_book, started at index 1 with a
zero miss counter. -/
def chapterCrawl (env : Env) (dom : Dom) (book_id : String) (hard_cap : Nat) :
    List Chapter × Nat :=
  chapterLoopAux env dom book_id hard_cap 1 0

/-- crawl_single_book from src/app.py: a falsy detail fetch aborts the
book; otherwise title, description and category are extracted from the
detail page, the chapter loop runs up to the hard cap, and the Book
record is assembled with the chapter-1 URL as source when any chapter was
collected. -/
def crawl_single_book (env : Env) (dom : Dom) (book_id : String) (hard_cap : Nat) :
    Option Book :=
  let fetched := fetchUrl env (detail_url book_id)
  if pyFalsy fetched then none
  else
    let detail := fetched.getD ""
    let title := bookTitle dom detail book_id
    let desc := bookDescription dom detail
    let category := bookCategory dom detail
    let chapters := (chapterCrawl env dom book_id hard_cap).1
    let src := if chapters.isEmpty then detail_url book_id else chapter_url book_id 1
    some { id := book_id, title := title, description := desc, category := category,
           source_book := src, chapters := chapters }

/-! ## Orchestrator -/

/-- Homepage URL selection by mode. -/
def homepageFor (short : Bool) : String :=
  if short then "https://qnote.qq.com/cate/30125" else "https://qnote.qq.com/"

/-- Outcome of crawling one book inside the orchestrator loop: a Python
exception escaping crawl_single_book, or its Optional result. -/
inductive BookOutcome where
  | exn
  | ok (b : Option Book)

/-- The per-book outcome realized by the environment. -/
def bookOutcome (env : Env) (dom : Dom) (cap : Nat) (bid : String) : BookOutcome :=
  if env.raises bid then .exn else .ok (crawl_single_book env dom bid cap)

/-- The per-book loop of crawl_books: an exception is caught and the book
skipped; a None book is skipped; a Book is appended. -/
def crawlLoop (outcome : String → BookOutcome) : List String → List Book
  | [] => []
  | bid :: rest =>
    match outcome bid with
    | .exn => crawlLoop outcome rest
    | .ok none => crawlLoop outcome rest
    | .ok (some b) => b :: crawlLoop outcome rest

/-- Python list slicing l[:k] for a possibly negative bound. -/
def pySliceTo (l : List α) (k : Int) : List α :=
  if 0 ≤ k then l.take k.toNat else l.take (l.length - (-k).toNat)

/-- The id selection of crawl_books: `book_ids[: max(1, min(len(book_ids),
req.num_books))]`. -/
def selectIds (ids : List String) (num_books : Int) : List String :=
  pySliceTo ids (max 1 (min (ids.length : Int) num_books))

/-- crawl_books from src/app.py: mode-dependent homepage, 502 on a falsy
homepage fetch, id extraction, shuffle (an oracle), slicing, and the
per-book loop with a mode-dependent hard cap of 5 (short) or 200 (long). -/
def crawl_books (env : Env) (dom : Dom) (urljoin : String → String → String)
    (shuffle : List String → List String) (req : CrawlRequest) :
    Except Nat (List Book) :=
  let homepage := homepageFor req.short
  let body? := fetchUrl env homepage
  if pyFalsy body? then .error 502
  else
    let body := body?.getD ""
    let book_ids := extract_book_ids_from_homepage dom urljoin body homepage
    let sel := selectIds (shuffle book_ids) req.num_books
    let cap := if req.short then 5 else 200
    .ok (crawlLoop (bookOutcome env dom cap) sel)

/-! ## Async job variant -/

/-- Modelled from the spec: the async job endpoints (/api/crawl_start,
/api/crawl_status, /api/crawl_result) and their background task are not
present in src/app.py; only the in-memory `jobs` store declaration is
(src/app.py line 33). The job status enumeration follows the spec data
model: pending, running, done, error. -/
inductive JobStatus where
  | pending
  | running
  | done
  | error
deriving DecidableEq

/-- Modelled from the spec: a job record with status, progress 0-100,
optional result and optional error message. -/
structure Job where
  status : JobStatus
  progress : Nat
  result : Option (List Book)
  error : Option String
deriving DecidableEq

/-- Modelled from the spec: the job transitions performed by the single
background task instance of a job: pending to running at pickup, then
running to done on success or running to error on failure. -/
inductive JobStep : JobStatus → JobStatus → Prop where
  | start : JobStep .pending .running
  | complete : JobStep .running .done
  | fail : JobStep .running .error

/-- Modelled from the spec: POST /api/crawl_start creates the job record
synchronously in the pending state and returns the generated job
identifier immediately; the background execution is scheduled, not run. -/
def crawl_start (jobs : List (String × Job)) (jid : String) :
    List (String × Job) × String :=
  ((jid, { status := .pending, progress := 0, result := none, error := none }) :: jobs, jid)

/-- Modelled from the spec: GET /api/crawl_status returns the status,
progress and error of the job, or 404 for an unknown job id. -/
def crawl_status (jobs : List (String × Job)) (jid : String) :
    Except Nat (JobStatus × Nat × Option String) :=
  match jobs.lookup jid with
  | none => .error 404
  | some j => .ok (j.status, j.progress, j.error)

/-- Modelled from the spec: GET /api/crawl_result returns the result list
only for a job in the done state, and 404 otherwise (unknown id or job
not yet done). -/
def crawl_result (jobs : List (String × Job)) (jid : String) :
    Except Nat (List Book) :=
  match jobs.lookup jid with
  | none => .error 404
  | some j => if j.status = .done then .ok (j.result.getD []) else .error 404

/-! ## Concrete environments for the worked examples -/

/-- A page oracle on which every DOM query is empty. -/
def emptyDom : Dom :=
  { findH1H2 := fun _ => none
    selectOne := fun _ _ => none
    select := fun _ _ => .nil
    findAllP := fun _ => .nil
    findH1 := fun _ => none
    anchorHrefs := fun _ => [] }

/-- Environment realizing the fetch-result sequence hit, hit, miss, miss,
miss, hit for the chapters of book 7: chapters 1, 2 and 6 respond 200,
all other URLs respond 404. -/
def c1Env : Env :=
  { outcome := fun url =>
      if url == chapter_url "7" 1 || url == chapter_url "7" 2 || url == chapter_url "7" 6
      then .response 200 "c" else .response 404 ""
    raises := fun _ => false }

/-- Request for one book in short mode. -/
def shortReq : CrawlRequest := { num_books := 1, short := true }

/-- Default request of the crawl endpoints. -/
def defaultReq : CrawlRequest := {}

/-- Environment for a short-mode run: the short homepage and the detail
page of book 7 respond, chapters 1 and 2 of book 7 respond, everything
else is a 404. -/
def shortEnv : Env :=
  { outcome := fun url =>
      if url == homepageFor true then .response 200 "home"
      else if url == detail_url "7" then .response 200 "d7"
      else if url == chapter_url "7" 1 || url == chapter_url "7" 2 then .response 200 "c7"
      else .response 404 ""
    raises := fun _ => false }

/-- Intro node of the detail page of book 7. -/
def introNode : Node :=
  .element "div" [] (.cons (.text "Great book") .nil)

/-- Page oracle for the short-mode run: the homepage holds one detail
anchor, the detail page has an .intro description, chapter pages are
bare. -/
def shortDom : Dom :=
  { findH1H2 := fun _ => none
    selectOne := fun h sel => if h == "d7" && sel == ".intro" then some introNode else none
    select := fun _ _ => .nil
    findAllP := fun _ => .nil
    findH1 := fun _ => none
    anchorHrefs := fun h => if h == "home" then ["/detail/7"] else [] }

/-- The book produced by the short-mode run: two chapters and the
original cleaned description, untouched by any folding. -/
def shortBook : Book :=
  { id := "7"
    title := "Book 7"
    description := "<div>Great book</div>"
    category := "Unknown"
    source_book := chapter_url "7" 1
    chapters :=
      [{ title := "Chương 1", content := "<p>Chưa có nội dung</p>", source := chapter_url "7" 1 },
       { title := "Chương 2", content := "<p>Chưa có nội dung</p>", source := chapter_url "7" 2 }] }

/-- Environment whose every response is a 200 with an empty body; the
homepage fetch then returns a present but empty text. -/
def emptyHomeEnv : Env :=
  { outcome := fun _ => .response 200 ""
    raises := fun _ => false }

/-- Environment whose homepage responds with a non-empty body and where
every other URL fails; paired with emptyDom it yields zero candidate
ids. -/
def noIdsEnv : Env :=
  { outcome := fun url =>
      if url == homepageFor false then .response 200 "h" else .response 404 ""
    raises := fun _ => false }

/-- Meta tag node carrying a description content attribute. -/
def metaNode : Node :=
  .element "meta" [("name", "description"), ("content", "A nice book")] .nil

/-- Page oracle where only the meta description query of the detail page
of book 3 succeeds. -/
def metaDom : Dom :=
  { findH1H2 := fun _ => none
    selectOne := fun h sel => if h == "d3" && sel == metaSel then some metaNode else none
    select := fun _ _ => .nil
    findAllP := fun _ => .nil
    findH1 := fun _ => none
    anchorHrefs := fun _ => [] }

/-- Environment where only the detail page of book 3 responds. -/
def metaEnv : Env :=
  { outcome := fun url =>
      if url == detail_url "3" then .response 200 "d3" else .response 404 ""
    raises := fun _ => false }

/-- Page oracle for the link-extractor example: the homepage holds the
four anchors of the worked example. -/
def extractDom : Dom :=
  { findH1H2 := fun _ => none
    selectOne := fun _ _ => none
    select := fun _ _ => .nil
    findAllP := fun _ => .nil
    findH1 := fun _ => none
    anchorHrefs := fun h =>
      if h == "home5" then ["/detail/5", "/detail/5", "http://x/detail/9?q=1", "/other/5"]
      else [] }

/-- The pending job record created at submission. -/
def pendingJob : Job :=
  { status := .pending, progress := 0, result := none, error := none }

/-! ## Lemmas about clean_html -/

/-- A node free of img elements is not itself an img. -/
theorem isImg_eq_false_of_noTag : ∀ n : Node, noTagNode "img" n = true → isImg n = false
  | .text _, _ => rfl
  | .element tag attrs children, h => by
    simp only [noTagNode, Bool.and_eq_true] at h
    simp only [isImg]
    simpa using h.1

/-- A node free of anchor elements is not itself an anchor. -/
theorem isAnchor_eq_false_of_noTag : ∀ n : Node, noTagNode "a" n = true → isAnchor n = false
  | .text _, _ => rfl
  | .element tag attrs children, h => by
    simp only [noTagNode, Bool.and_eq_true] at h
    simp only [isAnchor]
    simpa using h.1

mutual
/-- Stripping images from a non-img node leaves no img element in it. -/
theorem noTag_img_stripImgsNode : ∀ n : Node, isImg n = false →
    noTagNode "img" (stripImgsNode n) = true
  | .text _, _ => rfl
  | .element tag attrs children, h => by
    simp only [stripImgsNode, noTagNode, Bool.and_eq_true]
    refine ⟨?_, noTag_img_stripImgsList children⟩
    simp only [isImg] at h
    simp [h]
/-- Stripping images from a forest leaves no img element in it. -/
theorem noTag_img_stripImgsList : ∀ ns : NodeList, noTagList "img" (stripImgsList ns) = true
  | .nil => rfl
  | .cons n rest => by
    by_cases h : isImg n = true
    · simp only [stripImgsList, h, if_pos]
      exact noTag_img_stripImgsList rest
    · simp only [Bool.not_eq_true] at h
      simp only [stripImgsList, h, Bool.false_eq_true, if_false, noTagList, Bool.and_eq_true]
      exact ⟨noTag_img_stripImgsNode n h, noTag_img_stripImgsList rest⟩
end

mutual
/-- Unwrapping anchors never introduces an img element into a non-anchor
node that had none. -/
theorem noTag_img_unwrapNode : ∀ n : Node, noTagNode "img" n = true →
    noTagNode "img" (unwrapAnchorsNode n) = true
  | .text _, _ => rfl
  | .element tag attrs children, h => by
    simp only [noTagNode, Bool.and_eq_true] at h
    simp only [unwrapAnchorsNode, noTagNode, Bool.and_eq_true]
    exact ⟨h.1, noTag_img_unwrapList children h.2⟩
/-- Unwrapping anchors never introduces an img element into a forest that
had none. -/
theorem noTag_img_unwrapList : ∀ ns : NodeList, noTagList "img" ns = true →
    noTagList "img" (unwrapAnchorsList ns) = true
  | .nil, _ => rfl
  | .cons n rest, h => by
    simp only [noTagList, Bool.and_eq_true] at h
    by_cases ha : isAnchor n = true
    · simp only [unwrapAnchorsList, ha, if_pos, noTagList, Bool.and_eq_true]
      exact ⟨rfl, noTag_img_unwrapList rest h.2⟩
    · simp only [Bool.not_eq_true] at ha
      simp only [unwrapAnchorsList, ha, Bool.false_eq_true, if_false, noTagList,
        Bool.and_eq_true]
      exact ⟨noTag_img_unwrapNode n h.1, noTag_img_unwrapList rest h.2⟩
end

mutual
/-- Unwrapping anchors leaves no anchor element in a non-anchor node. -/
theorem noTag_a_unwrapNode : ∀ n : Node, isAnchor n = false →
    noTagNode "a" (unwrapAnchorsNode n) = true
  | .text _, _ => rfl
  | .element tag attrs children, h => by
    simp only [isAnchor] at h
    simp only [unwrapAnchorsNode, noTagNode, Bool.and_eq_true]
    exact ⟨by simp [h], noTag_a_unwrapList children⟩
/-- Unwrapping anchors leaves no anchor element in a forest. -/
theorem noTag_a_unwrapList : ∀ ns : NodeList, noTagList "a" (unwrapAnchorsList ns) = true
  | .nil => rfl
  | .cons n rest => by
    by_cases ha : isAnchor n = true
    · simp only [unwrapAnchorsList, ha, if_pos, noTagList, Bool.and_eq_true]
      exact ⟨rfl, noTag_a_unwrapList rest⟩
    · simp only [Bool.not_eq_true] at ha
      simp only [unwrapAnchorsList, ha, Bool.false_eq_true, if_false, noTagList,
        Bool.and_eq_true]
      exact ⟨noTag_a_unwrapNode n ha, noTag_a_unwrapList rest⟩
end

mutual
/-- Stripping images is the identity on an img-free node. -/
theorem stripImgsNode_id : ∀ n : Node, noTagNode "img" n = true → stripImgsNode n = n
  | .text _, _ => rfl
  | .element tag attrs children, h => by
    simp only [noTagNode, Bool.and_eq_true] at h
    simp only [stripImgsNode]
    rw [stripImgsList_id children h.2]
/-- Stripping images is the identity on an img-free forest. -/
theorem stripImgsList_id : ∀ ns : NodeList, noTagList "img" ns = true → stripImgsList ns = ns
  | .nil, _ => rfl
  | .cons n rest, h => by
    simp only [noTagList, Bool.and_eq_true] at h
    have hn : isImg n = false := isImg_eq_false_of_noTag n h.1
    simp only [stripImgsList, hn, Bool.false_eq_true, if_false]
    rw [stripImgsList_id rest h.2, stripImgsNode_id n h.1]
end

mutual
/-- Unwrapping anchors is the identity on an anchor-free node. -/
theorem unwrapAnchorsNode_id : ∀ n : Node, noTagNode "a" n = true → unwrapAnchorsNode n = n
  | .text _, _ => rfl
  | .element tag attrs children, h => by
    simp only [noTagNode, Bool.and_eq_true] at h
    simp only [unwrapAnchorsNode]
    rw [unwrapAnchorsList_id children h.2]
/-- Unwrapping anchors is the identity on an anchor-free forest. -/
theorem unwrapAnchorsList_id : ∀ ns : NodeList, noTagList "a" ns = true →
    unwrapAnchorsList ns = ns
  | .nil, _ => rfl
  | .cons n rest, h => by
    simp only [noTagList, Bool.and_eq_true] at h
    have hn : isAnchor n = false := isAnchor_eq_false_of_noTag n h.1
    simp only [unwrapAnchorsList, hn, Bool.false_eq_true, if_false]
    rw [unwrapAnchorsList_id rest h.2, unwrapAnchorsNode_id n h.1]
end

/-- C6: the output of clean_html contains no image element and no anchor
element (each anchor is replaced by its visible text during cleaning),
and clean_html is idempotent on the parsed DOM forest: cleaning an
already cleaned forest changes nothing. -/
theorem clean_html_spec (ns : NodeList) :
    noTagList "img" (clean_html ns) = true ∧
    noTagList "a" (clean_html ns) = true ∧
    clean_html (clean_html ns) = clean_html ns := by
  have himg : noTagList "img" (clean_html ns) = true :=
    noTag_img_unwrapList _ (noTag_img_stripImgsList ns)
  have ha : noTagList "a" (clean_html ns) = true := noTag_a_unwrapList _
  refine ⟨himg, ha, ?_⟩
  show unwrapAnchorsList (stripImgsList (clean_html ns)) = clean_html ns
  rw [stripImgsList_id _ himg, unwrapAnchorsList_id _ ha]

/-- C7: fetch_text is a total function of the fetch outcome, so no
exception propagates to its caller; it returns the response body exactly
on HTTP status 200 and None on any other status or on any exception, and
a body is returned precisely for a 200 response carrying that body. -/
theorem fetch_text_spec :
    (∀ (s : Nat) (body : String),
      fetch_text (.response s body) = if s == 200 then some body else none) ∧
    fetch_text .exn = none ∧
    (∀ (o : FetchOutcome) (t : String), fetch_text o = some t ↔ o = .response 200 t) := by
  refine ⟨fun _ _ => rfl, rfl, fun o t => ?_⟩
  cases o with
  | exn => simp [fetch_text]
  | response s body =>
    by_cases h : s = 200
    · subst h
      simp [fetch_text]
    · simp [fetch_text, h, Nat.beq_eq_true_eq]

/-- C9 (spec-modelled): submission creates the job in the pending state
and returns its identifier; the background transition relation moves only
along pending to running and running to done-or-error; status polling of
an unknown job id is a 404; and result polling is a 404 whenever the job
is unknown or not yet done. -/
theorem job_api_spec :
    (∀ (jobs : List (String × Job)) (jid : String),
      (crawl_start jobs jid).1.lookup jid =
        some { status := .pending, progress := 0, result := none, error := none } ∧
      (crawl_start jobs jid).2 = jid) ∧
    (∀ s t, JobStep s t →
      (s = .pending ∧ t = .running) ∨ (s = .running ∧ (t = .done ∨ t = .error))) ∧
    (∀ jobs jid, jobs.lookup jid = none → crawl_status jobs jid = .error 404) ∧
    (∀ jobs jid, jobs.lookup jid = none → crawl_result jobs jid = .error 404) ∧
    (∀ jobs jid j, jobs.lookup jid = some j → j.status ≠ .done →
      crawl_result jobs jid = .error 404) := by
  refine ⟨fun jobs jid => ⟨?_, rfl⟩, fun s t h => ?_, fun jobs jid h => ?_,
    fun jobs jid h => ?_, fun jobs jid j hj hs => ?_⟩
  · simp [crawl_start, List.lookup]
  · cases h with
    | start => exact Or.inl ⟨rfl, rfl⟩
    | complete => exact Or.inr ⟨rfl, Or.inl rfl⟩
    | fail => exact Or.inr ⟨rfl, Or.inr rfl⟩
  · simp [crawl_status, h]
  · simp [crawl_result, h]
  · simp [crawl_result, hj, hs]

/-! ## Lemmas about the chapter loop -/

/-- Unfolding of the chapter loop at a hit: the chapter is appended, the
miss counter resets, and one more fetch is counted. -/
theorem chapterLoopAux_hit (env : Env) (dom : Dom) (bid : String) (fuel i m : Nat)
    (h : chapterHit env bid i = true) :
    chapterLoopAux env dom bid (fuel + 1) i m =
      (mkChapter env dom bid i :: (chapterLoopAux env dom bid fuel (i + 1) 0).1,
       (chapterLoopAux env dom bid fuel (i + 1) 0).2 + 1) := by
  simp only [chapterLoopAux, h, if_true]

/-- Unfolding of the chapter loop at the third consecutive miss: the loop
breaks with that single extra fetch counted. -/
theorem chapterLoopAux_break (env : Env) (dom : Dom) (bid : String) (fuel i m : Nat)
    (h : chapterHit env bid i = false) (hm : 3 ≤ m + 1) :
    chapterLoopAux env dom bid (fuel + 1) i m = ([], 1) := by
  simp only [chapterLoopAux, h, Bool.false_eq_true, if_false, hm, if_true]

/-- Unfolding of the chapter loop at a non-final miss: the miss counter
advances and one more fetch is counted. -/
theorem chapterLoopAux_miss (env : Env) (dom : Dom) (bid : String) (fuel i m : Nat)
    (h : chapterHit env bid i = false) (hm : ¬ 3 ≤ m + 1) :
    chapterLoopAux env dom bid (fuel + 1) i m =
      ((chapterLoopAux env dom bid fuel (i + 1) (m + 1)).1,
       (chapterLoopAux env dom bid fuel (i + 1) (m + 1)).2 + 1) := by
  simp only [chapterLoopAux, h, Bool.false_eq_true, if_false, hm]

/-- The loop never attempts more fetches than it has iterations left. -/
theorem chapterLoopAux_attempts_le (env : Env) (dom : Dom) (bid : String) :
    ∀ fuel i m, (chapterLoopAux env dom bid fuel i m).2 ≤ fuel
  | 0, _, _ => Nat.le_refl 0
  | fuel + 1, i, m => by
    by_cases h : chapterHit env bid i
    · rw [chapterLoopAux_hit env dom bid fuel i m h]
      have := chapterLoopAux_attempts_le env dom bid fuel (i + 1) 0
      simpa using this
    · rw [Bool.not_eq_true] at h
      by_cases hm : 3 ≤ m + 1
      · rw [chapterLoopAux_break env dom bid fuel i m h hm]
        simp
      · rw [chapterLoopAux_miss env dom bid fuel i m h hm]
        have := chapterLoopAux_attempts_le env dom bid fuel (i + 1) (m + 1)
        simpa using this

/-- The chapters collected by the loop are exactly the hit indices among
the attempted ones, attempted consecutively in increasing order from the
start index, each assembled by mkChapter. -/
theorem chapterLoopAux_chapters (env : Env) (dom : Dom) (bid : String) :
    ∀ fuel i m, (chapterLoopAux env dom bid fuel i m).1 =
      ((List.range' i (chapterLoopAux env dom bid fuel i m).2).filter
        (fun j => chapterHit env bid j)).map (mkChapter env dom bid)
  | 0, _, _ => rfl
  | fuel + 1, i, m => by
    by_cases h : chapterHit env bid i
    · rw [chapterLoopAux_hit env dom bid fuel i m h]
      have ih := chapterLoopAux_chapters env dom bid fuel (i + 1) 0
      simp only [List.range'_succ, List.filter_cons, h, if_true, List.map_cons]
      exact congrArg _ ih
    · rw [Bool.not_eq_true] at h
      by_cases hm : 3 ≤ m + 1
      · rw [chapterLoopAux_break env dom bid fuel i m h hm]
        simp [List.range'_succ, List.filter_cons, h]
      · rw [chapterLoopAux_miss env dom bid fuel i m h hm]
        have ih := chapterLoopAux_chapters env dom bid fuel (i + 1) (m + 1)
        simp only [List.range'_succ, List.filter_cons, h, Bool.false_eq_true, if_false]
        exact ih

/-- When the loop returns early (fewer attempts than iterations), the
miss counter has reached 3: the miss budget entering the run plus the
attempts made is at least 3, and every attempt close enough to the end
(within the last three) was a miss. -/
theorem chapterLoopAux_stop (env : Env) (dom : Dom) (bid : String) :
    ∀ fuel i m, (chapterLoopAux env dom bid fuel i m).2 = fuel ∨
      (3 ≤ m + (chapterLoopAux env dom bid fuel i m).2 ∧
        ∀ j, j < (chapterLoopAux env dom bid fuel i m).2 →
          (chapterLoopAux env dom bid fuel i m).2 ≤ j + 3 →
          chapterHit env bid (i + j) = false)
  | 0, _, _ => Or.inl rfl
  | fuel + 1, i, m => by
    by_cases h : chapterHit env bid i
    · rw [chapterLoopAux_hit env dom bid fuel i m h]
      rcases chapterLoopAux_stop env dom bid fuel (i + 1) 0 with h0 | ⟨h3, htail⟩
      · exact Or.inl (by simpa using h0)
      · refine Or.inr ⟨by simp; omega, ?_⟩
        intro j hj hle
        simp only at hj hle ⊢
        rcases j with _ | j'
        · omega
        · have := htail j' (by omega) (by omega)
          have harg : i + (j' + 1) = (i + 1) + j' := by omega
          rw [harg]
          exact this
    · rw [Bool.not_eq_true] at h
      by_cases hm : 3 ≤ m + 1
      · rw [chapterLoopAux_break env dom bid fuel i m h hm]
        refine Or.inr ⟨by simp; omega, ?_⟩
        intro j hj hle
        simp only at hj
        interval_cases j
        simpa using h
      · rw [chapterLoopAux_miss env dom bid fuel i m h hm]
        rcases chapterLoopAux_stop env dom bid fuel (i + 1) (m + 1) with h0 | ⟨h3, htail⟩
        · exact Or.inl (by simpa using h0)
        · refine Or.inr ⟨by simp; omega, ?_⟩
          intro j hj hle
          simp only at hj hle ⊢
          rcases j with _ | j'
          · simpa using h
          · have := htail j' (by omega) (by omega)
            have harg : i + (j' + 1) = (i + 1) + j' := by omega
            rw [harg]
            exact this

/-- C1: in the early-exit sequential chapter acquisition, indices are
attempted one at a time in increasing order starting at 1 — the chapters
produced are exactly the hits among the attempted indices 1..attempts, in
order — the number of attempts never exceeds the hard cap, and the loop
stops only at the hard cap or right after a third consecutive miss;
on the fetch-result sequence hit, hit, miss, miss, miss, hit with hard
cap 10, exactly 5 fetches are attempted and exactly 2 chapters are
produced. -/
theorem chapter_crawl_spec (env : Env) (dom : Dom) (bid : String) (cap : Nat) :
    ((chapterCrawl env dom bid cap).1 =
      ((List.range' 1 (chapterCrawl env dom bid cap).2).filter
        (fun j => chapterHit env bid j)).map (mkChapter env dom bid)) ∧
    (chapterCrawl env dom bid cap).2 ≤ cap ∧
    ((chapterCrawl env dom bid cap).2 = cap ∨
      (3 ≤ (chapterCrawl env dom bid cap).2 ∧
        chapterHit env bid (chapterCrawl env dom bid cap).2 = false ∧
        chapterHit env bid ((chapterCrawl env dom bid cap).2 - 1) = false ∧
        chapterHit env bid ((chapterCrawl env dom bid cap).2 - 2) = false)) ∧
    (chapterCrawl c1Env emptyDom "7" 10).2 = 5 ∧
    (chapterCrawl c1Env emptyDom "7" 10).1.length = 2 := by
  refine ⟨chapterLoopAux_chapters env dom bid cap 1 0,
    chapterLoopAux_attempts_le env dom bid cap 1 0, ?_, rfl, rfl⟩
  have hcc : chapterLoopAux env dom bid cap 1 0 = chapterCrawl env dom bid cap := rfl
  rcases chapterLoopAux_stop env dom bid cap 1 0 with h0 | ⟨h3, htail⟩
  · exact Or.inl (by rwa [hcc] at h0)
  · rw [hcc] at h3 htail
    set a := (chapterCrawl env dom bid cap).2 with ha
    refine Or.inr ⟨by omega, ?_, ?_, ?_⟩
    · have := htail (a - 1) (by omega) (by omega)
      rwa [show 1 + (a - 1) = a by omega] at this
    · have := htail (a - 2) (by omega) (by omega)
      rwa [show 1 + (a - 2) = a - 1 by omega] at this
    · have := htail (a - 3) (by omega) (by omega)
      rwa [show 1 + (a - 3) = a - 2 by omega] at this

/-! ## Lemmas about the link extractor -/

/-- The dedup pass returns a duplicate-free list none of whose members
was already seen. -/
theorem dedupFirst_nodup : ∀ (seen l : List String),
    (dedupFirst seen l).Nodup ∧ ∀ x ∈ dedupFirst seen l, x ∉ seen
  | _, [] => ⟨List.nodup_nil, by simp [dedupFirst]⟩
  | seen, i :: rest => by
    by_cases h : i ∈ seen
    · simp only [dedupFirst, if_pos h]
      exact dedupFirst_nodup seen rest
    · simp only [dedupFirst, if_neg h]
      obtain ⟨h1, h2⟩ := dedupFirst_nodup (i :: seen) rest
      refine ⟨List.nodup_cons.mpr ⟨fun hmem => ?_, h1⟩, ?_⟩
      · have := h2 i hmem
        simp at this
      · intro x hx hxseen
        rcases List.mem_cons.mp hx with rfl | hx'
        · exact h hxseen
        · exact h2 x hx' (List.mem_cons_of_mem _ hxseen)

/-- The dedup pass preserves the order of first occurrences: its output
is a sublist of its input. -/
theorem dedupFirst_sublist : ∀ (seen l : List String), (dedupFirst seen l).Sublist l
  | _, [] => List.Sublist.refl []
  | seen, i :: rest => by
    by_cases h : i ∈ seen
    · simp only [dedupFirst, if_pos h]
      exact (dedupFirst_sublist seen rest).cons i
    · simp only [dedupFirst, if_neg h]
      exact (dedupFirst_sublist (i :: seen) rest).cons₂ i

/-- Membership in the dedup output: exactly the unseen members of the
input. -/
theorem dedupFirst_mem : ∀ (seen l : List String) (x : String),
    x ∈ dedupFirst seen l ↔ x ∈ l ∧ x ∉ seen
  | _, [], x => by simp [dedupFirst]
  | seen, i :: rest, x => by
    by_cases h : i ∈ seen
    · simp only [dedupFirst, if_pos h]
      rw [dedupFirst_mem seen rest x]
      constructor
      · exact fun ⟨hx, hs⟩ => ⟨List.mem_cons_of_mem _ hx, hs⟩
      · rintro ⟨hx, hs⟩
        rcases List.mem_cons.mp hx with rfl | hx'
        · exact absurd h hs
        · exact ⟨hx', hs⟩
    · simp only [dedupFirst, if_neg h, List.mem_cons]
      rw [dedupFirst_mem (i :: seen) rest x]
      constructor
      · rintro (rfl | ⟨hx, hs⟩)
        · exact ⟨Or.inl rfl, h⟩
        · exact ⟨Or.inr hx, fun hseen => hs (List.mem_cons_of_mem _ hseen)⟩
      · rintro ⟨rfl | hx, hs⟩
        · exact Or.inl rfl
        · by_cases hxi : x = i
          · exact Or.inl hxi
          · refine Or.inr ⟨hx, ?_⟩
            intro hmem
            rcases List.mem_cons.mp hmem with h1 | h2
            · exact hxi h1
            · exact hs h2

/-- C5: extract_book_ids_from_homepage returns the captured digit runs of
the hrefs matching the detail pattern after resolution (collectDetailIds,
which skips non-matching anchors), with duplicates removed and
first-occurrence order preserved: the output has no duplicates, is an
order-preserving sublist of the match sequence, and keeps exactly its
members; on the worked four-anchor page the result is 5 then 9. -/
theorem extract_book_ids_spec :
    (∀ (dom : Dom) (urljoin : String → String → String) (html base : String),
      (extract_book_ids_from_homepage dom urljoin html base).Nodup ∧
      (extract_book_ids_from_homepage dom urljoin html base).Sublist
        (collectDetailIds urljoin base (dom.anchorHrefs html)) ∧
      (∀ x, x ∈ extract_book_ids_from_homepage dom urljoin html base ↔
        x ∈ collectDetailIds urljoin base (dom.anchorHrefs html))) ∧
    extract_book_ids_from_homepage extractDom urljoinAbsPath "home5" "https://qnote.qq.com/"
      = ["5", "9"] := by
  refine ⟨fun dom urljoin html base => ⟨?_, ?_, fun x => ?_⟩, rfl⟩
  · exact (dedupFirst_nodup [] _).1
  · exact dedupFirst_sublist [] _
  · rw [show extract_book_ids_from_homepage dom urljoin html base =
      dedupFirst [] (collectDetailIds urljoin base (dom.anchorHrefs html)) from rfl]
    rw [dedupFirst_mem]
    simp

/-! ## Lemmas about the orchestrator -/

/-- The per-book loop keeps exactly the ids whose outcome is a present
book: exceptions and missing books are filtered away and the loop
continues past them. -/
theorem crawlLoop_filterMap (outcome : String → BookOutcome) :
    ∀ ids : List String, crawlLoop outcome ids =
      ids.filterMap (fun bid =>
        match outcome bid with
        | .ok (some b) => some b
        | _ => none)
  | [] => rfl
  | bid :: rest => by
    simp only [crawlLoop, List.filterMap_cons]
    cases ho : outcome bid with
    | exn => simpa using crawlLoop_filterMap outcome rest
    | ok ob =>
      cases ob with
      | none => simpa using crawlLoop_filterMap outcome rest
      | some b => simpa using crawlLoop_filterMap outcome rest

/-- crawl_books fails with 502 exactly on a falsy homepage fetch. -/
theorem crawl_books_eq_error (env : Env) (dom : Dom)
    (urljoin : String → String → String) (shuffle : List String → List String)
    (req : CrawlRequest) (h : pyFalsy (fetchUrl env (homepageFor req.short)) = true) :
    crawl_books env dom urljoin shuffle req = .error 502 := by
  simp only [crawl_books, h, if_true]

/-- Unfolding of crawl_books on a non-falsy homepage fetch. -/
theorem crawl_books_eq_ok (env : Env) (dom : Dom)
    (urljoin : String → String → String) (shuffle : List String → List String)
    (req : CrawlRequest) (h : pyFalsy (fetchUrl env (homepageFor req.short)) = false) :
    crawl_books env dom urljoin shuffle req = .ok (crawlLoop
      (bookOutcome env dom (if req.short then 5 else 200))
      (selectIds (shuffle (extract_book_ids_from_homepage dom urljoin
        ((fetchUrl env (homepageFor req.short)).getD "") (homepageFor req.short)))
        req.num_books)) := by
  simp only [crawl_books, h, Bool.false_eq_true, if_false]

/-- Every book in an ok result of crawl_books is the untouched output of
crawl_single_book for some id whose crawl did not raise, run with the
mode-dependent hard cap. -/
theorem crawl_books_books_from_single (env : Env) (dom : Dom)
    (urljoin : String → String → String) (shuffle : List String → List String)
    (req : CrawlRequest) (l : List Book) (b : Book)
    (hok : crawl_books env dom urljoin shuffle req = .ok l) (hb : b ∈ l) :
    ∃ bid, env.raises bid = false ∧
      crawl_single_book env dom bid (if req.short then 5 else 200) = some b := by
  by_cases h : pyFalsy (fetchUrl env (homepageFor req.short)) = true
  · rw [crawl_books_eq_error env dom urljoin shuffle req h] at hok
    cases hok
  · rw [Bool.not_eq_true] at h
    rw [crawl_books_eq_ok env dom urljoin shuffle req h] at hok
    injection hok with hok
    subst hok
    rw [crawlLoop_filterMap] at hb
    obtain ⟨bid, hbid, hmatch⟩ := List.mem_filterMap.mp hb
    refine ⟨bid, ?_⟩
    unfold bookOutcome at hmatch
    by_cases hr : env.raises bid = true
    · rw [if_pos hr] at hmatch
      cases hmatch
    · rw [Bool.not_eq_true] at hr
      rw [if_neg (by simp [hr])] at hmatch
      refine ⟨hr, ?_⟩
      cases hcs : crawl_single_book env dom bid (if req.short then 5 else 200) with
      | none => rw [hcs] at hmatch; cases hmatch
      | some b' => rw [hcs] at hmatch; simpa using hmatch

/-- Unfolding of crawl_single_book on a present non-empty detail page. -/
theorem crawl_single_book_eq (env : Env) (dom : Dom) (bid : String) (cap : Nat)
    (detail : String) (hfetch : fetchUrl env (detail_url bid) = some detail)
    (hne : detail ≠ "") :
    crawl_single_book env dom bid cap = some
      { id := bid
        title := bookTitle dom detail bid
        description := bookDescription dom detail
        category := bookCategory dom detail
        source_book := if (chapterCrawl env dom bid cap).1.isEmpty then detail_url bid
          else chapter_url bid 1
        chapters := (chapterCrawl env dom bid cap).1 } := by
  have hfal : pyFalsy (some detail) = false := by
    show (detail == "") = false
    exact beq_eq_false_iff_ne.mpr hne
  simp only [crawl_single_book, hfetch, Option.getD_some, hfal, Bool.false_eq_true, if_false]

/-- A book assembled by crawl_single_book never holds more chapters than
the hard cap. -/
theorem crawl_single_book_chapters_le (env : Env) (dom : Dom) (bid : String) (cap : Nat)
    (b : Book) (h : crawl_single_book env dom bid cap = some b) :
    b.chapters.length ≤ cap := by
  have hlen : (chapterCrawl env dom bid cap).1.length ≤ cap := by
    show (chapterLoopAux env dom bid cap 1 0).1.length ≤ cap
    rw [chapterLoopAux_chapters env dom bid cap 1 0]
    rw [List.length_map]
    calc ((List.range' 1 (chapterLoopAux env dom bid cap 1 0).2).filter
            (fun j => chapterHit env bid j)).length
        ≤ (List.range' 1 (chapterLoopAux env dom bid cap 1 0).2).length :=
          List.length_filter_le _ _
      _ = (chapterLoopAux env dom bid cap 1 0).2 := by simp
      _ ≤ cap := chapterLoopAux_attempts_le env dom bid cap 1 0
  cases hf : fetchUrl env (detail_url bid) with
  | none =>
    rw [show crawl_single_book env dom bid cap = none from by
      simp [crawl_single_book, hf, pyFalsy]] at h
    cases h
  | some detail =>
    by_cases hne : detail = ""
    · subst hne
      rw [show crawl_single_book env dom bid cap = none from by
        simp [crawl_single_book, hf, pyFalsy]] at h
      cases h
    · rw [crawl_single_book_eq env dom bid cap detail hf hne] at h
      injection h with h
      rw [← h]
      exact hlen

/-- The description selector loop yields the empty string when no
selector matches an element with non-empty stripped text. -/
theorem descFromSelectors_empty (dom : Dom) (detail : String) :
    ∀ sels : List String,
      (∀ sel ∈ sels, ∀ n, dom.selectOne detail sel = some n → getTextStripNode n = "") →
      descFromSelectors dom detail sels = ""
  | [], _ => rfl
  | sel :: rest, h => by
    simp only [descFromSelectors]
    cases hsel : dom.selectOne detail sel with
    | none =>
      exact descFromSelectors_empty dom detail rest
        (fun s hs => h s (List.mem_cons_of_mem _ hs))
    | some n =>
      have hn := h sel (List.mem_cons_self _ _) n hsel
      show (if (getTextStripNode n == "") = true then descFromSelectors dom detail rest
        else serializeList (clean_html (NodeList.cons n NodeList.nil))) = ""
      rw [if_pos (by simp [hn])]
      exact descFromSelectors_empty dom detail rest
        (fun s hs => h s (List.mem_cons_of_mem _ hs))

/-! ## Claim theorems about the orchestrator -/

/-- C2 counterexample: a short-mode crawl whose book has a description
and two successful chapters returns that book with both chapters still in
its chapters list and the description untouched: short mode neither
empties the chapter list nor folds chapter text into the description. -/
theorem short_mode_chapters_counterexample :
    crawl_books shortEnv shortDom urljoinAbsPath (fun l => l) shortReq = .ok [shortBook] ∧
    shortBook.chapters ≠ [] ∧
    shortBook.description = "<div>Great book</div>" :=
  ⟨rfl, by decide, rfl⟩

/-- C2 (amended): in short mode crawl_books runs crawl_single_book with a
hard cap of 5 and returns each successfully crawled book exactly as
produced: the chapters list is kept, not emptied, and the description is
not augmented with any chapter text. -/
theorem crawl_books_short_passthrough (env : Env) (dom : Dom)
    (urljoin : String → String → String) (shuffle : List String → List String)
    (req : CrawlRequest) (l : List Book) (b : Book) (hshort : req.short = true)
    (hok : crawl_books env dom urljoin shuffle req = .ok l) (hb : b ∈ l) :
    ∃ bid, env.raises bid = false ∧ crawl_single_book env dom bid 5 = some b := by
  obtain ⟨bid, hr, hcs⟩ := crawl_books_books_from_single env dom urljoin shuffle req l b hok hb
  rw [hshort] at hcs
  exact ⟨bid, hr, by simpa using hcs⟩

/-- Witness for C2: the short-mode run of the counterexample environment,
fed through the amended theorem at the concrete book. -/
theorem crawl_books_short_passthrough_witness :
    ∃ bid, shortEnv.raises bid = false ∧
      crawl_single_book shortEnv shortDom bid 5 = some shortBook :=
  crawl_books_short_passthrough shortEnv shortDom urljoinAbsPath (fun l => l) shortReq
    [shortBook] shortBook rfl rfl (by decide)

/-- C3 counterexample: with a homepage responding 200 with an empty body
the fetch returns a present result, not absence, yet crawl_books still
fails with the 502 upstream error — refuting the only-if direction of the
claim as stated. -/
theorem crawl_books_empty_body_counterexample :
    crawl_books emptyHomeEnv emptyDom urljoinAbsPath (fun l => l) defaultReq = .error 502 ∧
    fetchUrl emptyHomeEnv (homepageFor defaultReq.short) = some "" :=
  ⟨rfl, rfl⟩

/-- C3 (amended): crawl_books fails with the 502 upstream error exactly
when the homepage fetch is falsy — absent or an empty body — and the
per-book loop keeps precisely the ids whose crawl neither raises nor
returns None, so a per-book exception is caught, the book excluded, and
the batch continues. -/
theorem crawl_books_error_spec (env : Env) (dom : Dom)
    (urljoin : String → String → String) (shuffle : List String → List String)
    (req : CrawlRequest) :
    (crawl_books env dom urljoin shuffle req = .error 502 ↔
      pyFalsy (fetchUrl env (homepageFor req.short)) = true) ∧
    (∀ (outcome : String → BookOutcome) (ids : List String),
      crawlLoop outcome ids = ids.filterMap (fun bid =>
        match outcome bid with
        | .ok (some b) => some b
        | _ => none)) := by
  refine ⟨?_, fun outcome ids => crawlLoop_filterMap outcome ids⟩
  by_cases h : pyFalsy (fetchUrl env (homepageFor req.short)) = true
  · simp [crawl_books_eq_error env dom urljoin shuffle req h, h]
  · rw [Bool.not_eq_true] at h
    rw [crawl_books_eq_ok env dom urljoin shuffle req h]
    simp [h]

/-- C4: every book returned by crawl_books carries at most the
mode-dependent chapter budget many chapters: at most 5 in short mode and
at most 200 in long mode. -/
theorem crawl_books_chapter_budget (env : Env) (dom : Dom)
    (urljoin : String → String → String) (shuffle : List String → List String)
    (req : CrawlRequest) (l : List Book) (b : Book)
    (hok : crawl_books env dom urljoin shuffle req = .ok l) (hb : b ∈ l) :
    b.chapters.length ≤ if req.short then 5 else 200 := by
  obtain ⟨bid, _, hcs⟩ := crawl_books_books_from_single env dom urljoin shuffle req l b hok hb
  exact crawl_single_book_chapters_le env dom bid _ b hcs

/-- Witness for C4: the concrete short-mode run returns a book of two
chapters, within the short budget of 5. -/
theorem crawl_books_chapter_budget_witness :
    shortBook.chapters.length ≤ if shortReq.short then 5 else 200 :=
  crawl_books_chapter_budget shortEnv shortDom urljoinAbsPath (fun l => l) shortReq
    [shortBook] shortBook rfl (by decide)

/-- C8: the number of selected ids is max(1, min(candidates, num_books))
truncated to the available candidates; with num_books = 0 and a non-empty
candidate list exactly one id is selected; and when a reachable homepage
yields zero candidate ids, crawl_books returns the empty list without
error. -/
theorem crawl_books_selection_spec :
    (∀ (ids : List String) (nb : Int),
      (selectIds ids nb).length =
        min ids.length (max 1 (min (ids.length : Int) nb)).toNat) ∧
    (∀ ids : List String, ids ≠ [] → (selectIds ids 0).length = 1) ∧
    (∀ (env : Env) (dom : Dom) (urljoin : String → String → String)
        (shuffle : List String → List String) (req : CrawlRequest) (body : String),
      fetchUrl env (homepageFor req.short) = some body → body ≠ "" →
      extract_book_ids_from_homepage dom urljoin body (homepageFor req.short) = [] →
      shuffle [] = [] →
      crawl_books env dom urljoin shuffle req = .ok []) := by
  have hsel : ∀ (ids : List String) (nb : Int),
      (selectIds ids nb).length =
        min ids.length (max 1 (min (ids.length : Int) nb)).toNat := by
    intro ids nb
    unfold selectIds pySliceTo
    have h1 : (0 : Int) ≤ max 1 (min (ids.length : Int) nb) :=
      le_trans zero_le_one (le_max_left _ _)
    rw [if_pos h1, List.length_take]
    omega
  refine ⟨hsel, ?_, ?_⟩
  · intro ids hne
    have hlen : 0 < ids.length := List.length_pos.mpr hne
    rw [hsel ids 0]
    omega
  · intro env dom urljoin shuffle req body hfetch hbody hext hsh
    have hfal : pyFalsy (fetchUrl env (homepageFor req.short)) = false := by
      rw [hfetch]
      show (body == "") = false
      exact beq_eq_false_iff_ne.mpr hbody
    rw [crawl_books_eq_ok env dom urljoin shuffle req hfal, hfetch, Option.getD_some,
      hext, hsh]
    have hnil : selectIds [] req.num_books = [] := by
      unfold selectIds pySliceTo
      split <;> simp
    rw [hnil]
    rfl

/-- Witness for C8: with one candidate and num_books 0 exactly one id is
selected, and the zero-candidate homepage yields the empty ok result. -/
theorem crawl_books_selection_spec_witness :
    (selectIds ["a"] 0).length = 1 ∧
    crawl_books noIdsEnv emptyDom urljoinAbsPath (fun l => l) defaultReq = .ok [] :=
  ⟨crawl_books_selection_spec.2.1 ["a"] (by decide),
   crawl_books_selection_spec.2.2 noIdsEnv emptyDom urljoinAbsPath (fun l => l) defaultReq
     "h" rfl (by decide) rfl rfl⟩

/-- C10: when no description selector matches an element with non-empty
stripped text, the raw content attribute of the meta description tag —
not passed through clean_html — becomes the description of the book, and
the placeholder appears exactly when the meta tag also yields nothing. -/
theorem description_meta_fallback (env : Env) (dom : Dom) (bid : String) (cap : Nat)
    (detail : String)
    (hfetch : fetchUrl env (detail_url bid) = some detail) (hne : detail ≠ "")
    (hsel : ∀ sel ∈ descSelectors, ∀ n, dom.selectOne detail sel = some n →
      getTextStripNode n = "") :
    (∀ m c, dom.selectOne detail metaSel = some m → getAttr m "content" = some c →
      c ≠ "" → ∃ b, crawl_single_book env dom bid cap = some b ∧ b.description = c) ∧
    ((dom.selectOne detail metaSel = none ∨
      (∃ m, dom.selectOne detail metaSel = some m ∧
        (getAttr m "content" = none ∨ getAttr m "content" = some ""))) →
      ∃ b, crawl_single_book env dom bid cap = some b ∧
        b.description = "<p>Chưa có mô tả</p>") := by
  have hbook := crawl_single_book_eq env dom bid cap detail hfetch hne
  have hd0 := descFromSelectors_empty dom detail descSelectors hsel
  constructor
  · intro m c hm hc hcne
    refine ⟨_, hbook, ?_⟩
    show bookDescription dom detail = c
    simp only [bookDescription, hd0, hm, hc]
    have hc' : (c == "") = false := beq_eq_false_iff_ne.mpr hcne
    simp [hc']
  · intro hcases
    refine ⟨_, hbook, ?_⟩
    show bookDescription dom detail = "<p>Chưa có mô tả</p>"
    rcases hcases with hnone | ⟨m, hm, hnoc | hemp⟩
    · simp [bookDescription, hd0, hnone]
    · simp [bookDescription, hd0, hm, hnoc]
    · simp [bookDescription, hd0, hm, hemp]

/-- Witness for C10: on the meta environment the raw meta content
becomes the description; with no meta tag the placeholder appears. -/
theorem description_meta_fallback_witness :
    (∃ b, crawl_single_book metaEnv metaDom "3" 5 = some b ∧
      b.description = "A nice book") ∧
    (∃ b, crawl_single_book metaEnv emptyDom "3" 5 = some b ∧
      b.description = "<p>Chưa có mô tả</p>") :=
  ⟨(description_meta_fallback metaEnv metaDom "3" 5 "d3" rfl (by decide)
      (by intro sel hs n hn; fin_cases hs <;> exact Option.noConfusion hn)).1
    metaNode "A nice book" rfl rfl (by decide),
   (description_meta_fallback metaEnv emptyDom "3" 5 "d3" rfl (by decide)
      (by intro sel hs n hn; exact Option.noConfusion hn)).2 (Or.inl rfl)⟩

/-- Witness for C9: evaluated on the empty store and on a store holding a
pending job, the 404 branches of crawl_status and crawl_result fire. -/
theorem job_api_spec_witness :
    crawl_status ([] : List (String × Job)) "j" = .error 404 ∧
    crawl_result [("j", pendingJob)] "j" = .error 404 ∧
    (crawl_start ([] : List (String × Job)) "j").2 = "j" :=
  ⟨job_api_spec.2.2.1 [] "j" rfl,
   job_api_spec.2.2.2.2 [("j", pendingJob)] "j" pendingJob rfl (by decide),
   (job_api_spec.1 [] "j").2⟩

end QNote
